import Mathlib

/-!
Shallow embedding of the `scoped` library: the `Scope` cleanup engine,
its teardown semantics, and the `optional_arg_decorator` helper from
`src/scoped/utils.py`.  The `Scope` engine itself is not present under
`src/` (only its tests and the spec describe it), so its definitions are
modelled from the spec, as marked in their doc comments.
-/

namespace Scoped

/-- Exceptions are identified by a numeric identity, so that "the identical
exception object" is expressible as equality of identities. -/
abbrev Exn := Nat

/-- Modelled from the spec: a registered callback with its captured
positional arguments, keyword arguments and `ignore_errors` flag
(spec §3 data model, §4.1 `on_exit_do` / `on_error_do`). -/
structure CallbackSpec where
  cb : Nat
  args : List Int
  kwargs : List (String × Int)
  ignoreErrors : Bool
deriving DecidableEq

/-- Modelled from the spec: a cleanup entry of a `Scope` (spec §3):
an unconditional exit entry, an error-only entry, or an adopted resource. -/
inductive Entry
  | exitEntry (cfg : CallbackSpec)
  | errorEntry (cfg : CallbackSpec)
  | adoptedResource (rid : Nat)
deriving DecidableEq

/-- Observable events of a run: a callback invocation with the forwarded
arguments, a resource release step receiving the error state, and a
resource acquire step. -/
inductive Event
  | callbackCall (cb : Nat) (args : List Int) (kwargs : List (String × Int))
  | releaseCall (rid : Nat) (errorState : Option Exn)
  | acquireCall (rid : Nat)
deriving DecidableEq

/-- Modelled from the spec: the error taxonomy of spec §7 plus pass-through
of an exception raised by an acquire step. -/
inductive ScopeErr
  | illegalState
  | noActiveScope
  | raised (e : Exn)
deriving DecidableEq

/-- Modelled from the spec: a `Scope` holds an ordered list of cleanup
entries (registration order) and a closing flag (spec §3, §4.1). -/
structure Scope where
  entries : List Entry
  closing : Bool
deriving DecidableEq

/-- Modelled from the spec: an adoptable resource exposes an acquire step
(which either returns a value or raises) and a release step identified by
`rid` (spec §6 collaborator contract). -/
structure Resource where
  rid : Nat
  acquire : Except Exn Int

/-- Modelled from the spec: `on_exit_do` registers an `ExitEntry` capturing
the arguments now; it fails with `IllegalStateError` if the scope is
already closing (spec §4.1). -/
def Scope.on_exit_do (s : Scope) (cb : Nat) (args : List Int)
    (ignoreErrors : Bool) (kwargs : List (String × Int)) : Except ScopeErr Scope :=
  if s.closing then .error .illegalState
  else .ok { s with entries := s.entries ++ [.exitEntry ⟨cb, args, kwargs, ignoreErrors⟩] }

/-- Modelled from the spec: `on_error_do` has the same contract as
`on_exit_do` but registers an `ErrorEntry` (spec §4.1). -/
def Scope.on_error_do (s : Scope) (cb : Nat) (args : List Int)
    (ignoreErrors : Bool) (kwargs : List (String × Int)) : Except ScopeErr Scope :=
  if s.closing then .error .illegalState
  else .ok { s with entries := s.entries ++ [.errorEntry ⟨cb, args, kwargs, ignoreErrors⟩] }

/-- Modelled from the spec: `add` immediately performs the acquire step.
If it raises, that exception propagates and no entry is registered; if it
returns a value, an `AdoptedResource` entry is registered and the value is
handed back (spec §4.1 `add`).  The first component records the events of
the call itself: the acquire step runs exactly once, at call time. -/
def Scope.add (s : Scope) (r : Resource) :
    List Event × Except ScopeErr (Scope × Int) :=
  if s.closing then ([], .error .illegalState)
  else
    ([.acquireCall r.rid],
      match r.acquire with
      | .error e => .error (.raised e)
      | .ok v => .ok ({ s with entries := s.entries ++ [.adoptedResource r.rid] }, v))

/-- Modelled from the spec: the events one entry produces during teardown
with error state `es` (spec §4.1 teardown step 3): an adopted resource's
release step always runs and receives the error state, an exit entry's
callback always runs, an error entry's callback runs only when an error is
in flight. -/
def entryEvents (es : Option Exn) : Entry → List Event
  | .exitEntry cfg => [.callbackCall cfg.cb cfg.args cfg.kwargs]
  | .errorEntry cfg =>
      if es.isSome then [.callbackCall cfg.cb cfg.args cfg.kwargs] else []
  | .adoptedResource rid => [.releaseCall rid es]

/-- Whether an entry executes at all during a teardown with error state
`es`: error entries execute only when an error is in flight. -/
def Entry.executes (es : Option Exn) : Entry → Bool
  | .errorEntry _ => es.isSome
  | _ => true

/-- The single event an entry produces when it executes. -/
def Entry.eventOf (es : Option Exn) : Entry → Event
  | .exitEntry cfg => .callbackCall cfg.cb cfg.args cfg.kwargs
  | .errorEntry cfg => .callbackCall cfg.cb cfg.args cfg.kwargs
  | .adoptedResource rid => .releaseCall rid es

/-- The `ignore_errors` flag of an entry (adopted resources carry none). -/
def Entry.ignores : Entry → Bool
  | .exitEntry cfg => cfg.ignoreErrors
  | .errorEntry cfg => cfg.ignoreErrors
  | .adoptedResource _ => false

/-- The identity of the action an entry runs: the callback id, or the
resource id for an adopted resource's release step. -/
def Entry.actionId : Entry → Nat
  | .exitEntry cfg => cfg.cb
  | .errorEntry cfg => cfg.cb
  | .adoptedResource rid => rid

/-- Modelled from the spec: the secondary exception escaping one entry
during teardown (spec §4.1 step 3).  `raises` gives the exception a
callback raises when invoked (none = returns normally), `rel` the same for
a resource's release step.  An entry marked `ignore_errors` swallows its
own callback's exception; an entry that does not execute raises nothing. -/
def entryEscape (raises rel : Nat → Option Exn) (es : Option Exn) :
    Entry → Option Exn
  | .exitEntry cfg =>
      match raises cfg.cb with
      | some e => if cfg.ignoreErrors then none else some e
      | none => none
  | .errorEntry cfg =>
      if es.isSome then
        match raises cfg.cb with
        | some e => if cfg.ignoreErrors then none else some e
        | none => none
      else none
  | .adoptedResource rid => rel rid

/-- Modelled from the spec: teardown walks the entries in reverse
registration order (spec §4.1 step 3), producing the event trace in
execution order.  Secondary exceptions do not abort the unwind: the
remaining entries are still attempted (spec §4.1 step 3, §9). -/
def runEntries (es : Option Exn) : List Entry → List Event
  | [] => []
  | en :: rest => runEntries es rest ++ entryEvents es en

/-- Modelled from the spec: the secondary exceptions escaping the entries,
in execution order (reverse registration order). -/
def runEscapes (raises rel : Nat → Option Exn) (es : Option Exn) :
    List Entry → List Exn
  | [] => []
  | en :: rest =>
      runEscapes raises rel es rest ++ (entryEscape raises rel es en).toList

/-- Modelled from the spec: the exception re-raised to the caller after
teardown (spec §4.1 step 4): the original in-flight error when there is
one — it is never swallowed — and otherwise the first non-ignored
secondary exception, if any. -/
def teardownExn (raises rel : Nat → Option Exn) (es : Option Exn)
    (entries : List Entry) : Option Exn :=
  match es with
  | some e => some e
  | none => (runEscapes raises rel es entries).head?

/-- The outcome of closing a scope: the closed scope, the event trace of
the teardown, and the exception re-raised to the caller (if any). -/
structure CloseResult where
  scope : Scope
  events : List Event
  raised : Option Exn

/-- Modelled from the spec: teardown (`close`, spec §4.1): mark the scope
closing, walk the entries in reverse registration order with the error
state `es`, and re-raise per the propagation policy. -/
def Scope.close (raises rel : Nat → Option Exn) (s : Scope)
    (es : Option Exn) : CloseResult :=
  { scope := { s with closing := true }
    events := runEntries es s.entries
    raised := teardownExn raises rel es s.entries }

/-- Number of invocations of callback `c` in an event trace. -/
def callCount (c : Nat) (events : List Event) : Nat :=
  events.countP fun ev =>
    match ev with
    | .callbackCall cb _ _ => cb == c
    | _ => false

/-- Number of release-step invocations of resource `rid` in a trace. -/
def releaseCount (rid : Nat) (events : List Event) : Nat :=
  events.countP fun ev =>
    match ev with
    | .releaseCall i _ => i == rid
    | _ => false

/-- Number of acquire-step invocations of resource `rid` in a trace. -/
def acquireCount (rid : Nat) (events : List Event) : Nat :=
  events.countP fun ev =>
    match ev with
    | .acquireCall i => i == rid
    | _ => false

/-- Number of exit entries registered for callback `c`. -/
def exitCount (c : Nat) (entries : List Entry) : Nat :=
  entries.countP fun en =>
    match en with
    | .exitEntry cfg => cfg.cb == c
    | _ => false

/-- Number of error entries registered for callback `c`. -/
def errorCount (c : Nat) (entries : List Entry) : Nat :=
  entries.countP fun en =>
    match en with
    | .errorEntry cfg => cfg.cb == c
    | _ => false

/-- Number of adopted-resource entries registered for resource `rid`. -/
def adoptedCount (rid : Nat) (entries : List Entry) : Nat :=
  entries.countP fun en =>
    match en with
    | .adoptedResource i => i == rid
    | _ => false

/-- The observable outcome of one decorated call: the teardown event trace
and the value returned (or the exception re-raised) to the caller. -/
structure CallOutcome where
  events : List Event
  result : Except Exn Int

/-- Modelled from the spec: the ambient free function `on_exit_do`
delegates to the current ambient scope and fails with `NoActiveScopeError`
when none is installed (spec §6). -/
def on_exit_do (amb : Option Scope) (cb : Nat) (args : List Int)
    (ignoreErrors : Bool) (kwargs : List (String × Int)) :
    Except ScopeErr (Option Scope) :=
  match amb with
  | none => .error .noActiveScope
  | some s => (s.on_exit_do cb args ignoreErrors kwargs).map some

/-- Modelled from the spec: the ambient free function `on_error_do`,
same contract as the free `on_exit_do` (spec §6). -/
def on_error_do (amb : Option Scope) (cb : Nat) (args : List Int)
    (ignoreErrors : Bool) (kwargs : List (String × Int)) :
    Except ScopeErr (Option Scope) :=
  match amb with
  | none => .error .noActiveScope
  | some s => (s.on_error_do cb args ignoreErrors kwargs).map some

/-- Modelled from the spec: a call through the decorator's explicit form
(spec §4.2): a fresh `Scope` is created and injected into the body as its
named parameter; the body runs, returning a value or raising; the scope
tears down with the corresponding error state; afterwards the teardown's
re-raised exception (if any) propagates, otherwise the body's return value
is passed through unchanged. -/
def scopedExplicitCall (raises rel : Nat → Option Exn)
    (body : Scope → Scope × Except Exn Int) : CallOutcome :=
  let br := body ⟨[], false⟩
  let es : Option Exn := match br.2 with | .ok _ => none | .error e => some e
  let cr := br.1.close raises rel es
  ⟨cr.events, match cr.raised with | some e => .error e | none => br.2⟩

/-- Modelled from the spec: a call through the decorator's implicit form
(spec §4.2): a fresh `Scope` is installed as the ambient scope for the
duration of the call (the body sees and updates the ambient slot through
the free registration functions); after the body returns or raises, the
scope tears down, the ambient slot is cleared, and the return value or
exception propagates exactly as in the explicit form. -/
def scopedImplicitCall (raises rel : Nat → Option Exn)
    (body : Option Scope → Option Scope × Except Exn Int) :
    CallOutcome × Option Scope :=
  let br := body (some ⟨[], false⟩)
  let s1 := br.1.getD ⟨[], false⟩
  let es : Option Exn := match br.2 with | .ok _ => none | .error e => some e
  let cr := s1.close raises rel es
  (⟨cr.events, match cr.raised with | some e => .error e | none => br.2⟩, none)

/-!
## `optional_arg_decorator` (from `src/scoped/utils.py`)

Python values that can reach the decorator are defunctionalized into
`PyVal`; `R` is the (abstract) result type of the underlying decorator
`fn`, which takes the decoratee plus the forwarded positional and keyword
arguments.
-/

/-- A Python value as the decorator machinery sees it: only whether it is
callable matters to the dispatch logic. -/
inductive PyVal
  | int (n : Int)
  | str (s : String)
  | func (fid : Nat)
deriving DecidableEq, Inhabited

/-- Python's `callable` test on a `PyVal`. -/
def isCallable : PyVal → Bool
  | .func _ => true
  | _ => false

/-- The result of one call of `wrapped_decorator` (utils.py lines 11-20):
either `fn` was applied directly (bare form), or a `real_decorator`
closure capturing the original arguments is returned. -/
inductive WrapResult (R : Type)
  | wrappedNow (r : R)
  | factory (k : PyVal → R)

/-- `real_decorator` (utils.py lines 17-18): applies the underlying
decorator `fn` to the decoratee together with the captured arguments. -/
def real_decorator {R : Type} (fn : PyVal → List PyVal → List (String × PyVal) → R)
    (args : List PyVal) (kwargs : List (String × PyVal)) (decoratee : PyVal) : R :=
  fn decoratee args kwargs

/-- `optional_arg_decorator` (utils.py lines 9-22): the returned
`wrapped_decorator` checks `len(args) == 1 and callable(args[0]) and not
kwargs`; if so it applies `fn` to `args[0]` directly (forwarding the —
empty — keyword arguments), otherwise it returns the `real_decorator`
closure capturing `args` and `kwargs`. -/
def optional_arg_decorator {R : Type}
    (fn : PyVal → List PyVal → List (String × PyVal) → R)
    (args : List PyVal) (kwargs : List (String × PyVal)) : WrapResult R :=
  if args.length = 1 ∧ isCallable args.headI = true ∧ kwargs = [] then
    .wrappedNow (fn args.headI [] kwargs)
  else
    .factory (real_decorator fn args kwargs)

/-- Applies the closure returned in the parameterized case to a decoratee;
`none` when the decorator already applied `fn` directly. -/
def WrapResult.applyFactory {R : Type} : WrapResult R → PyVal → Option R
  | .factory k, d => some (k d)
  | .wrappedNow _, _ => none

/-! ## Helper lemmas -/

theorem runEntries_append (es : Option Exn) (l₁ l₂ : List Entry) :
    runEntries es (l₁ ++ l₂) = runEntries es l₂ ++ runEntries es l₁ := by
  induction l₁ with
  | nil => simp [runEntries]
  | cons en rest ih => simp [runEntries, ih, List.append_assoc]

theorem runEscapes_append (raises rel : Nat → Option Exn) (es : Option Exn)
    (l₁ l₂ : List Entry) :
    runEscapes raises rel es (l₁ ++ l₂)
      = runEscapes raises rel es l₂ ++ runEscapes raises rel es l₁ := by
  induction l₁ with
  | nil => simp [runEscapes]
  | cons en rest ih => simp [runEscapes, ih, List.append_assoc]

theorem entryEvents_eq_filtered (es : Option Exn) (en : Entry) :
    entryEvents es en
      = if en.executes es then [en.eventOf es] else [] := by
  cases en with
  | exitEntry cfg => simp [entryEvents, Entry.executes, Entry.eventOf]
  | errorEntry cfg =>
      by_cases h : es.isSome <;>
        simp [entryEvents, Entry.executes, Entry.eventOf, h]
  | adoptedResource rid => simp [entryEvents, Entry.executes, Entry.eventOf]

theorem runEntries_eq_filter_map (es : Option Exn) (entries : List Entry) :
    runEntries es entries
      = ((entries.reverse).filter (Entry.executes es)).map (Entry.eventOf es) := by
  induction entries with
  | nil => simp [runEntries]
  | cons en rest ih =>
      simp only [runEntries, List.reverse_cons, List.filter_append,
        List.map_append, ih]
      by_cases h : en.executes es
      · simp [entryEvents_eq_filtered, h]
      · simp [entryEvents_eq_filtered, h]

theorem callCount_append (c : Nat) (l₁ l₂ : List Event) :
    callCount c (l₁ ++ l₂) = callCount c l₁ + callCount c l₂ := by
  simp [callCount, List.countP_append]

theorem callCount_entryEvents (c : Nat) (es : Option Exn) (en : Entry) :
    callCount c (entryEvents es en)
      = (match en with
          | .exitEntry cfg => if cfg.cb == c then 1 else 0
          | .errorEntry cfg =>
              if es.isSome then (if cfg.cb == c then 1 else 0) else 0
          | .adoptedResource _ => 0) := by
  cases en with
  | exitEntry cfg => by_cases h : cfg.cb == c <;> simp [entryEvents, callCount, h]
  | errorEntry cfg =>
      by_cases hes : es.isSome
      · by_cases h : cfg.cb == c <;> simp [entryEvents, callCount, hes, h]
      · simp [entryEvents, callCount, hes]
  | adoptedResource rid => simp [entryEvents, callCount]

theorem callCount_runEntries (c : Nat) (es : Option Exn)
    (entries : List Entry) :
    callCount c (runEntries es entries)
      = exitCount c entries
        + (if es.isSome then errorCount c entries else 0) := by
  induction entries with
  | nil => simp [runEntries, callCount, exitCount, errorCount]
  | cons en rest ih =>
      simp only [runEntries, callCount_append, ih, callCount_entryEvents]
      cases en with
      | exitEntry cfg =>
          by_cases h : cfg.cb == c <;>
            by_cases hes : es.isSome <;>
              (simp [exitCount, errorCount, List.countP_cons, h, hes]; try omega)
      | errorEntry cfg =>
          by_cases h : cfg.cb == c <;>
            by_cases hes : es.isSome <;>
              (simp [exitCount, errorCount, List.countP_cons, h, hes]; try omega)
      | adoptedResource rid =>
          by_cases hes : es.isSome <;>
            simp [exitCount, errorCount, List.countP_cons, hes]

theorem releaseCount_append (rid : Nat) (l₁ l₂ : List Event) :
    releaseCount rid (l₁ ++ l₂)
      = releaseCount rid l₁ + releaseCount rid l₂ := by
  simp [releaseCount, List.countP_append]

theorem releaseCount_runEntries (rid : Nat) (es : Option Exn)
    (entries : List Entry) :
    releaseCount rid (runEntries es entries) = adoptedCount rid entries := by
  induction entries with
  | nil => simp [runEntries, releaseCount, adoptedCount]
  | cons en rest ih =>
      simp only [runEntries, releaseCount_append, ih]
      cases en with
      | exitEntry cfg => simp [entryEvents, releaseCount, adoptedCount, List.countP_cons]
      | errorEntry cfg =>
          by_cases hes : es.isSome <;>
            simp [entryEvents, releaseCount, adoptedCount, List.countP_cons, hes]
      | adoptedResource i =>
          by_cases h : i == rid <;>
            simp [entryEvents, releaseCount, adoptedCount, List.countP_cons, h]

theorem acquireCount_runEntries (rid : Nat) (es : Option Exn)
    (entries : List Entry) :
    acquireCount rid (runEntries es entries) = 0 := by
  induction entries with
  | nil => simp [runEntries, acquireCount]
  | cons en rest ih =>
      simp only [runEntries]
      cases en with
      | exitEntry cfg =>
          simp [acquireCount, List.countP_append, entryEvents] at ih ⊢
          exact ih
      | errorEntry cfg =>
          by_cases hes : es.isSome <;>
            · simp [acquireCount, List.countP_append, entryEvents, hes] at ih ⊢
              exact ih
      | adoptedResource i =>
          simp [acquireCount, List.countP_append, entryEvents] at ih ⊢
          exact ih

theorem entryEscape_of_ignores (raises rel : Nat → Option Exn)
    (es : Option Exn) (en : Entry) (h : en.ignores = true) :
    entryEscape raises rel es en = none := by
  cases en with
  | exitEntry cfg =>
      simp only [Entry.ignores] at h
      cases hr : raises cfg.cb <;> simp [entryEscape, hr, h]
  | errorEntry cfg =>
      simp only [Entry.ignores] at h
      by_cases hes : es.isSome
      · cases hr : raises cfg.cb <;> simp [entryEscape, hr, hes, h]
      · simp [entryEscape, hes]
  | adoptedResource rid => simp [Entry.ignores] at h

theorem runEscapes_all_none (raises rel : Nat → Option Exn) (es : Option Exn)
    (entries : List Entry) (hraises : ∀ c, raises c = none)
    (hrel : ∀ i, rel i = none) :
    runEscapes raises rel es entries = [] := by
  induction entries with
  | nil => simp [runEscapes]
  | cons en rest ih =>
      simp only [runEscapes, ih]
      cases en with
      | exitEntry cfg => simp [entryEscape, hraises]
      | errorEntry cfg =>
          by_cases hes : es.isSome <;> simp [entryEscape, hraises, hes]
      | adoptedResource rid => simp [entryEscape, hrel]

/-! ## Claims -/

/-- Claim C1: for every scope and every set of callbacks registered via
`on_exit_do` and `on_error_do`, when the scope tears down after normal
completion every exit callback is invoked exactly once and no error
callback is invoked; when it tears down because an error is in flight,
every exit callback and every error callback is invoked exactly once. -/
theorem C1_callback_invocation_counts (s : Scope)
    (raises rel : Nat → Option Exn) (c : Nat) :
    callCount c (Scope.close raises rel s none).events = exitCount c s.entries
    ∧ ∀ e : Exn,
        callCount c (Scope.close raises rel s (some e)).events
          = exitCount c s.entries + errorCount c s.entries := by
  constructor
  · simp [Scope.close, callCount_runEntries]
  · intro e
    simp [Scope.close, callCount_runEntries]

/-- Claim C2: for every scope and every sequence of registered cleanup
entries (any mixture of kinds), the entries that execute at teardown
execute in exactly the reverse registration order: the trace equals the
reversed entry list, restricted to the entries that execute, mapped to
their events. -/
theorem C2_reverse_registration_order (s : Scope)
    (raises rel : Nat → Option Exn) (es : Option Exn) :
    (Scope.close raises rel s es).events
      = ((s.entries.reverse).filter (Entry.executes es)).map (Entry.eventOf es) := by
  simp [Scope.close, runEntries_eq_filter_map]

/-- Claim C4: for every scope that tears down because of an in-flight
error, after all entries have run (the trace covers every entry), the
exception re-raised to the caller is the identical exception that
triggered teardown, whatever the entries' callbacks raise and whatever
their `ignore_errors` flags are. -/
theorem C4_reraises_identical_exception (s : Scope)
    (raises rel : Nat → Option Exn) (e : Exn) :
    (Scope.close raises rel s (some e)).raised = some e
    ∧ (Scope.close raises rel s (some e)).events
        = (s.entries.reverse).map (Entry.eventOf (some e)) := by
  constructor
  · simp [Scope.close, teardownExn]
  · have h : ∀ en : Entry, Entry.executes (some e) en = true := by
      intro en; cases en <;> simp [Entry.executes]
    simp [Scope.close, runEntries_eq_filter_map, List.filter_eq_self.mpr
      (fun en _ => h en)]

/-- Claim C7: registering `on_error_do(cb, 5, ignore_errors=True,
kwargs={"a2": 2})` on a fresh scope and then tearing down with an error in
flight invokes `cb` exactly once, with positional argument `5` and keyword
argument `a2 = 2`: the trace is exactly that one call. -/
theorem C7_forwarded_arguments (cb e : Nat) (raises rel : Nat → Option Exn) :
    (Scope.on_error_do ⟨[], false⟩ cb [5] true [("a2", 2)]).map
        (fun s1 => (Scope.close raises rel s1 (some e)).events)
      = Except.ok [Event.callbackCall cb [5] [("a2", 2)]] := by
  simp [Scope.on_error_do, Scope.close, runEntries, entryEvents, Except.map]

/-- Claim C3: for every resource whose acquire step succeeds with value
`v`, `Scope.add` runs the acquire step exactly once at call time, hands
`v` back to the caller, and the resulting scope's teardown runs the
resource's release step exactly once — on the normal-completion path and
on the erroring path alike — and never re-runs the acquire step. -/
theorem C3_add_acquires_once_and_releases_once (s : Scope) (r : Resource)
    (v : Int) (raises rel : Nat → Option Exn)
    (hopen : s.closing = false) (hacq : r.acquire = Except.ok v)
    (hfresh : adoptedCount r.rid s.entries = 0) :
    (Scope.add s r).1 = [Event.acquireCall r.rid]
    ∧ ∃ s' : Scope, (Scope.add s r).2 = Except.ok (s', v)
        ∧ ∀ es : Option Exn,
            releaseCount r.rid (Scope.close raises rel s' es).events = 1
            ∧ acquireCount r.rid (Scope.close raises rel s' es).events = 0 := by
  refine ⟨by simp [Scope.add, hopen], ⟨{ s with entries := s.entries ++ [.adoptedResource r.rid] }, ?_, ?_⟩⟩
  · simp [Scope.add, hopen, hacq]
  · intro es
    constructor
    · have hsplit : adoptedCount r.rid (s.entries ++ [.adoptedResource r.rid])
          = adoptedCount r.rid s.entries + 1 := by
        simp [adoptedCount, List.countP_append]
      simp [Scope.close, releaseCount_runEntries, hsplit, hfresh]
    · simp [Scope.close, acquireCount_runEntries]

/-- Claim C3 witness: adding a resource with id 7 whose acquire step
returns 42 to a fresh scope. -/
theorem C3_witness :
    (Scope.add ⟨[], false⟩ ⟨7, Except.ok 42⟩).1 = [Event.acquireCall 7]
    ∧ ∃ s' : Scope, (Scope.add ⟨[], false⟩ ⟨7, Except.ok 42⟩).2 = Except.ok (s', 42)
        ∧ ∀ es : Option Exn,
            releaseCount 7 (Scope.close (fun _ => none) (fun _ => none) s' es).events = 1
            ∧ acquireCount 7 (Scope.close (fun _ => none) (fun _ => none) s' es).events = 0 :=
  C3_add_acquires_once_and_releases_once ⟨[], false⟩ ⟨7, Except.ok 42⟩ 42
    (fun _ => none) (fun _ => none) rfl rfl rfl

/-- Claim C8: for every entry registered with `ignore_errors` true whose
callback raises during teardown, the raised exception is suppressed (the
entry contributes no escaping exception, and the exception re-raised
after teardown is the same as if the entry raised nothing) and teardown
continues executing all remaining entries: the trace still contains the
events of every other entry, in order. -/
theorem C8_ignore_errors_suppresses_and_continues (pre post : List Entry)
    (en : Entry) (raises rel : Nat → Option Exn) (es : Option Exn) (e : Exn)
    (hign : en.ignores = true) (_hraise : raises en.actionId = some e) :
    entryEscape raises rel es en = none
    ∧ (Scope.close raises rel ⟨pre ++ en :: post, false⟩ es).raised
        = (Scope.close raises rel ⟨pre ++ post, false⟩ es).raised
    ∧ (Scope.close raises rel ⟨pre ++ en :: post, false⟩ es).events
        = runEntries es post ++ entryEvents es en ++ runEntries es pre := by
  have hesc : entryEscape raises rel es en = none :=
    entryEscape_of_ignores raises rel es en hign
  refine ⟨hesc, ?_, ?_⟩
  · cases es with
    | some e' => simp [Scope.close, teardownExn]
    | none =>
        simp [Scope.close, teardownExn, runEscapes_append, runEscapes, hesc]
  · simp [Scope.close, runEntries_append, runEntries, List.append_assoc]

/-- Claim C8 witness: an `ignore_errors` exit entry for callback 1, whose
callback raises exception 9, between two plain exit entries. -/
theorem C8_witness :
    entryEscape (fun _ => some 9) (fun _ => none) none
        (.exitEntry ⟨1, [], [], true⟩) = none
    ∧ (Scope.close (fun _ => some 9) (fun _ => none)
          ⟨[Entry.exitEntry ⟨0, [], [], false⟩] ++ Entry.exitEntry ⟨1, [], [], true⟩
              :: [Entry.exitEntry ⟨2, [], [], false⟩], false⟩ none).raised
        = (Scope.close (fun _ => some 9) (fun _ => none)
            ⟨[Entry.exitEntry ⟨0, [], [], false⟩] ++ [Entry.exitEntry ⟨2, [], [], false⟩],
              false⟩ none).raised
    ∧ (Scope.close (fun _ => some 9) (fun _ => none)
          ⟨[Entry.exitEntry ⟨0, [], [], false⟩] ++ Entry.exitEntry ⟨1, [], [], true⟩
              :: [Entry.exitEntry ⟨2, [], [], false⟩], false⟩ none).events
        = runEntries none [Entry.exitEntry ⟨2, [], [], false⟩]
            ++ entryEvents none (.exitEntry ⟨1, [], [], true⟩)
            ++ runEntries none [Entry.exitEntry ⟨0, [], [], false⟩] :=
  C8_ignore_errors_suppresses_and_continues
    [Entry.exitEntry ⟨0, [], [], false⟩] [Entry.exitEntry ⟨2, [], [], false⟩]
    (.exitEntry ⟨1, [], [], true⟩) (fun _ => some 9) (fun _ => none) none 9
    rfl rfl

/-- Claim C9: for every resource whose acquire step raises, `Scope.add`
propagates exactly that exception, and no entry is registered: the
caller's scope still tears down with no release step for that resource. -/
theorem C9_failed_acquire_registers_nothing (s : Scope) (r : Resource)
    (e : Exn) (raises rel : Nat → Option Exn) (es : Option Exn)
    (hopen : s.closing = false) (hacq : r.acquire = Except.error e)
    (hfresh : adoptedCount r.rid s.entries = 0) :
    Scope.add s r = ([Event.acquireCall r.rid], Except.error (ScopeErr.raised e))
    ∧ releaseCount r.rid (Scope.close raises rel s es).events = 0 := by
  constructor
  · simp [Scope.add, hopen, hacq]
  · simp [Scope.close, releaseCount_runEntries]
    simpa [adoptedCount] using hfresh

/-- Claim C9 witness: adding a resource with id 3 whose acquire step
raises exception 5 to a fresh scope. -/
theorem C9_witness :
    Scope.add ⟨[], false⟩ ⟨3, Except.error 5⟩
        = ([Event.acquireCall 3], Except.error (ScopeErr.raised 5))
    ∧ releaseCount 3 (Scope.close (fun _ => none) (fun _ => none)
          ⟨[], false⟩ none).events = 0 :=
  C9_failed_acquire_registers_nothing ⟨[], false⟩ ⟨3, Except.error 5⟩ 5
    (fun _ => none) (fun _ => none) none rfl rfl rfl

/-- Claim C6: for every function wrapped with the `scoped` decorator, in
the explicit form and in the implicit form alike, when the body completes
without error (and the registered callbacks themselves raise nothing) the
wrapped call returns the body's return value unchanged, every exit
callback registered during the call runs exactly once, and no error
callback runs. -/
theorem C6_decorator_return_value_and_callbacks
    (raises rel : Nat → Option Exn) (v : Int)
    (hraises : ∀ c, raises c = none) (hrel : ∀ i, rel i = none) :
    (∀ (body : Scope → Scope × Except Exn Int) (s1 : Scope),
        body ⟨[], false⟩ = (s1, Except.ok v) →
        (scopedExplicitCall raises rel body).result = Except.ok v
        ∧ ∀ c, callCount c (scopedExplicitCall raises rel body).events
            = exitCount c s1.entries)
    ∧ (∀ (body : Option Scope → Option Scope × Except Exn Int)
          (amb1 : Option Scope),
        body (some ⟨[], false⟩) = (amb1, Except.ok v) →
        (scopedImplicitCall raises rel body).1.result = Except.ok v
        ∧ ∀ c, callCount c (scopedImplicitCall raises rel body).1.events
            = exitCount c (amb1.getD ⟨[], false⟩).entries) := by
  constructor
  · intro body s1 hbody
    constructor
    · simp [scopedExplicitCall, hbody, Scope.close, teardownExn,
        runEscapes_all_none raises rel none s1.entries hraises hrel]
    · intro c
      simp [scopedExplicitCall, hbody, Scope.close, callCount_runEntries]
  · intro body amb1 hbody
    constructor
    · simp [scopedImplicitCall, hbody, Scope.close, teardownExn,
        runEscapes_all_none raises rel none (amb1.getD ⟨[], false⟩).entries
          hraises hrel]
    · intro c
      simp [scopedImplicitCall, hbody, Scope.close, callCount_runEntries]

/-- Claim C6 witness: a body returning 42 that registers one exit callback
(id 1), run through the explicit and the implicit decorator form. -/
theorem C6_witness :
    ((scopedExplicitCall (fun _ => none) (fun _ => none)
        (fun s => (match Scope.on_exit_do s 1 [] false [] with
                    | .ok s' => s'
                    | .error _ => s, Except.ok 42))).result = Except.ok 42
      ∧ ∀ c, callCount c (scopedExplicitCall (fun _ => none) (fun _ => none)
            (fun s => (match Scope.on_exit_do s 1 [] false [] with
                        | .ok s' => s'
                        | .error _ => s, Except.ok 42))).events
          = exitCount c [Entry.exitEntry ⟨1, [], [], false⟩])
    ∧ ((scopedImplicitCall (fun _ => none) (fun _ => none)
        (fun amb => (match on_exit_do amb 1 [] false [] with
                      | .ok a => a
                      | .error _ => amb, Except.ok 42))).1.result = Except.ok 42
      ∧ ∀ c, callCount c (scopedImplicitCall (fun _ => none) (fun _ => none)
            (fun amb => (match on_exit_do amb 1 [] false [] with
                          | .ok a => a
                          | .error _ => amb, Except.ok 42))).1.events
          = exitCount c ((some (Scope.mk [Entry.exitEntry ⟨1, [], [], false⟩]
              false)).getD ⟨[], false⟩).entries) :=
  ⟨(C6_decorator_return_value_and_callbacks (fun _ => none) (fun _ => none) 42
      (fun _ => rfl) (fun _ => rfl)).1
    (fun s => (match Scope.on_exit_do s 1 [] false [] with
                | .ok s' => s'
                | .error _ => s, Except.ok 42))
    ⟨[Entry.exitEntry ⟨1, [], [], false⟩], false⟩ rfl,
   (C6_decorator_return_value_and_callbacks (fun _ => none) (fun _ => none) 42
      (fun _ => rfl) (fun _ => rfl)).2
    (fun amb => (match on_exit_do amb 1 [] false [] with
                  | .ok a => a
                  | .error _ => amb, Except.ok 42))
    (some (Scope.mk [Entry.exitEntry ⟨1, [], [], false⟩] false)) rfl⟩

/-- Claim C5: a decorator built by `optional_arg_decorator` applied to
exactly one positional argument that is callable with no keyword
arguments applies the underlying decorator `fn` to that argument
directly; in every other case it returns the `real_decorator` closure
which, applied to a function later, applies `fn` to that function
together with the originally captured arguments. -/
theorem C5_argument_form_disambiguation {R : Type}
    (fn : PyVal → List PyVal → List (String × PyVal) → R)
    (args : List PyVal) (kwargs : List (String × PyVal)) :
    (∀ a : PyVal, args = [a] → isCallable a = true → kwargs = [] →
        optional_arg_decorator fn args kwargs = .wrappedNow (fn a [] []))
    ∧ (¬(args.length = 1 ∧ isCallable args.headI = true ∧ kwargs = []) →
        ∀ d : PyVal,
          (optional_arg_decorator fn args kwargs).applyFactory d
            = some (fn d args kwargs)) := by
  constructor
  · rintro a rfl hc rfl
    simp [optional_arg_decorator, hc]
  · intro hneg d
    simp [optional_arg_decorator, hneg, WrapResult.applyFactory, real_decorator]

/-- Claim C5 witness: the bare form on a callable argument, and the
parameterized form on the non-callable argument `"scope"`. -/
theorem C5_witness :
    optional_arg_decorator (fun d a k => (d, a, k)) [PyVal.func 3] []
        = WrapResult.wrappedNow (PyVal.func 3, ([] : List PyVal),
            ([] : List (String × PyVal)))
    ∧ (optional_arg_decorator (fun d a k => (d, a, k))
          [PyVal.str "scope"] []).applyFactory (PyVal.func 3)
        = some (PyVal.func 3, [PyVal.str "scope"],
            ([] : List (String × PyVal))) := by
  constructor
  · exact (C5_argument_form_disambiguation (fun d a k => (d, a, k))
      [PyVal.func 3] []).1 (PyVal.func 3) rfl rfl rfl
  · exact (C5_argument_form_disambiguation (fun d a k => (d, a, k))
      [PyVal.str "scope"] []).2 (by simp [isCallable]) (PyVal.func 3)

/-- Claim C10: for every underlying decorator `fn` and callable `f`,
applying the decorator in empty-parenthesized form (zero arguments, then
the returned closure applied to `f`) produces the same result as applying
it bare to `f` directly: both evaluate to `fn f` with no extra
arguments. -/
theorem C10_bare_and_empty_paren_agree {R : Type}
    (fn : PyVal → List PyVal → List (String × PyVal) → R) (f : PyVal)
    (hf : isCallable f = true) :
    optional_arg_decorator fn [f] [] = .wrappedNow (fn f [] [])
    ∧ (optional_arg_decorator fn [] []).applyFactory f = some (fn f [] []) := by
  constructor
  · simp [optional_arg_decorator, hf]
  · simp [optional_arg_decorator, WrapResult.applyFactory, real_decorator]

/-- Claim C10 witness: bare form and empty-parenthesized form on the
callable `func 0`. -/
theorem C10_witness :
    optional_arg_decorator (fun d a k => (d, a, k)) [PyVal.func 0] []
        = WrapResult.wrappedNow (PyVal.func 0, ([] : List PyVal),
            ([] : List (String × PyVal)))
    ∧ (optional_arg_decorator (fun d a k => (d, a, k)) [] []).applyFactory
          (PyVal.func 0)
        = some (PyVal.func 0, ([] : List PyVal),
            ([] : List (String × PyVal))) :=
  C10_bare_and_empty_paren_agree (fun d a k => (d, a, k)) (PyVal.func 0) rfl

end Scoped
